import Mathlib

/-!
Verification development for the EaseABill personal-finance backend.

This file gives a shallow embedding, in Lean, of the budget-evaluation engine
of the repository (`backend/financial_helper.py` and `backend/stats_helper.py`)
and proves the specified properties about it.

Modelling conventions:
* Python `float` amounts, thresholds and ratios are modelled as `ℚ`.
* For the pacing layer (`progress_ratio`, `evaluate_budget_goal`) instants are
  modelled as `ℚ` (seconds on the UTC time line); the code only ever subtracts
  and compares them, via `total_seconds()`.
* The database is modelled as an explicit list of expense rows;
  `sum_expenses` reproduces the `SUM ... WHERE` query of `backend/database.py`.
* Python `datetime` values (used by the calendar window resolver) are modelled
  by the `PyDateTime` structure further below, over the proleptic Gregorian
  calendar exactly as CPython's `datetime` module implements it.
* The optional LLM "roast" post-processing of messages (`llm_roast_budget`)
  is an external collaborator that only rewrites the message text; messages
  are therefore modelled by their deterministic classification, not by the
  final string.
-/

namespace EaseABill

/-! ## Expense rows and the `sum_expenses` aggregation (backend/database.py) -/

/-- One row of the `expenses` table; only the columns read by
`sum_expenses` are modelled (`user_id`, `category`, `amount`, `date`).
The `date` column is an instant, modelled as seconds on the UTC time line. -/
structure Expense where
  user_id : String
  category : String
  amount : ℚ
  date : ℚ
deriving DecidableEq

/-- `database.sum_expenses`: total of `Expense.amount` over rows of the given
user whose date lies in `[start, end)`, optionally filtered by category. -/
def sum_expenses (expenses : List Expense) (user_id : String)
    (start end_ : ℚ) (category : Option String) : ℚ :=
  ((expenses.filter fun e =>
      decide (e.user_id = user_id) && decide (start ≤ e.date) && decide (e.date < end_) &&
        (match category with
         | none => true
         | some c => decide (e.category = c))).map Expense.amount).sum

/-! ## Time helpers: `progress_ratio` (financial_helper.py, lines 72-85) -/

/-- `financial_helper.progress_ratio`: ratio of elapsed time within
`[start, end)`, clamped to `[0, 1]`; `1` for a degenerate window. -/
def progress_ratio (start end_ now_ : ℚ) : ℚ :=
  let total := end_ - start
  if total ≤ 0 then 1
  else max 0 (min 1 ((min now_ end_ - start) / total))

/-! ## Budget goal evaluation (financial_helper.py, lines 100-173) -/

/-- One row of the `budgets` table; only the columns read by
`evaluate_budget_goal` are modelled (`limit`, `start_date`, `end_date`).
`category`, `period` and the ids do not enter the evaluation logic. -/
structure Budget where
  limit : ℚ
  start_date : ℚ
  end_date : ℚ
deriving DecidableEq

inductive GoalStatus
  | ON_TRACK
  | WARNING
  | OVERSPENT
deriving DecidableEq

/-- `financial_helper.BudgetGoalResult` together with the numeric payload
fields assembled by `evaluate_budget_goal`. The message string is omitted:
it is templated flavour text post-processed by the external LLM call. -/
structure BudgetGoalResult where
  status : GoalStatus
  shouldNotify : Bool
  spent : ℚ
  limit : ℚ
  remaining : ℚ
  percentUsed : ℚ
  expectedSpentByNow : ℚ
  expectedPercentByNow : ℚ
  aheadBy : ℚ
  aheadPercent : ℚ
deriving DecidableEq

/-- `financial_helper.evaluate_budget_goal`. `expenses` stands for the
expense table consulted by the `sum_expenses` collaborator call. -/
def evaluate_budget_goal (expenses : List Expense) (user_id : String)
    (budget : Budget) (now_ : ℚ)
    (notify_percent_used : ℚ := 80) (notify_ahead_of_pace_percent : ℚ := 10) :
    BudgetGoalResult :=
  let spent := sum_expenses expenses user_id budget.start_date budget.end_date none
  let limit_amt := budget.limit
  let remaining := limit_amt - spent
  let percent_used := if 0 < limit_amt then spent / limit_amt * 100 else 0
  let prog := progress_ratio budget.start_date budget.end_date now_
  let expected_spent := limit_amt * prog
  let expected_percent := prog * 100
  let ahead_by := spent - expected_spent
  let ahead_percent := percent_used - expected_percent
  if limit_amt < spent then
    { status := .OVERSPENT, shouldNotify := true, spent := spent, limit := limit_amt,
      remaining := remaining, percentUsed := percent_used,
      expectedSpentByNow := expected_spent, expectedPercentByNow := expected_percent,
      aheadBy := ahead_by, aheadPercent := ahead_percent }
  else if notify_percent_used ≤ percent_used ∨ notify_ahead_of_pace_percent ≤ ahead_percent then
    { status := .WARNING, shouldNotify := true, spent := spent, limit := limit_amt,
      remaining := remaining, percentUsed := percent_used,
      expectedSpentByNow := expected_spent, expectedPercentByNow := expected_percent,
      aheadBy := ahead_by, aheadPercent := ahead_percent }
  else
    { status := .ON_TRACK, shouldNotify := false, spent := spent, limit := limit_amt,
      remaining := remaining, percentUsed := percent_used,
      expectedSpentByNow := expected_spent, expectedPercentByNow := expected_percent,
      aheadBy := ahead_by, aheadPercent := ahead_percent }

/-- Position of a status in the order `ON_TRACK → WARNING → OVERSPENT`. -/
def statusRank : GoalStatus → Nat
  | .ON_TRACK => 0
  | .WARNING => 1
  | .OVERSPENT => 2

/-! ## C1-C4 -/

/-- C1: whenever the summed spend over the budget's `[start_date, end_date)`
window strictly exceeds the limit, `evaluate_budget_goal` returns status
`OVERSPENT` with `shouldNotify = true`, for every evaluation instant and every
pair of thresholds (including `limit ≤ 0`, e.g. `limit = 0, spent = 5`); and
when `limit ≤ 0` the guarded division makes `percentUsed` equal `0`, so a
non-positive limit can never reach `OVERSPENT` through the percent path. -/
theorem evaluate_budget_goal_overspent_spec (expenses : List Expense) (user_id : String)
    (budget : Budget) (now_ np na : ℚ) :
    (budget.limit < sum_expenses expenses user_id budget.start_date budget.end_date none →
      (evaluate_budget_goal expenses user_id budget now_ np na).status = GoalStatus.OVERSPENT ∧
      (evaluate_budget_goal expenses user_id budget now_ np na).shouldNotify = true) ∧
    (budget.limit ≤ 0 →
      (evaluate_budget_goal expenses user_id budget now_ np na).percentUsed = 0) := by
  constructor
  · intro h
    simp only [evaluate_budget_goal]
    rw [if_pos h]
    exact ⟨rfl, rfl⟩
  · intro h
    simp only [evaluate_budget_goal]
    split_ifs <;> simp <;> linarith

/-- Witness for C1 at `limit = 0`, `spent = 5`. -/
theorem evaluate_budget_goal_overspent_witness :
    (evaluate_budget_goal [⟨"u", "food", 5, 1⟩] "u" ⟨0, 0, 10⟩ 5 80 10).status =
      GoalStatus.OVERSPENT ∧
    (evaluate_budget_goal [⟨"u", "food", 5, 1⟩] "u" ⟨0, 0, 10⟩ 5 80 10).shouldNotify = true ∧
    (evaluate_budget_goal [⟨"u", "food", 5, 1⟩] "u" ⟨0, 0, 10⟩ 5 80 10).percentUsed = 0 := by
  have h := evaluate_budget_goal_overspent_spec [⟨"u", "food", 5, 1⟩] "u" ⟨0, 0, 10⟩ 5 80 10
  have h1 := h.1 (by norm_num [sum_expenses])
  exact ⟨h1.1, h1.2, h.2 (by norm_num)⟩

/-- C2: with `spent ≤ limit`, the result is `WARNING` with `shouldNotify = true`
exactly when `percent_used ≥ notify_percent_used` or
`ahead_percent ≥ notify_ahead_of_pace_percent` (each threshold alone
suffices), where `percent_used = spent / limit * 100` for `limit > 0` and `0`
otherwise, and `ahead_percent = percent_used - progress_ratio * 100`;
otherwise the result is `ON_TRACK` with `shouldNotify = false`. -/
theorem evaluate_budget_goal_warning_spec (expenses : List Expense) (user_id : String)
    (budget : Budget) (now_ np na : ℚ)
    (h : sum_expenses expenses user_id budget.start_date budget.end_date none ≤ budget.limit) :
    (((evaluate_budget_goal expenses user_id budget now_ np na).status = GoalStatus.WARNING ∧
        (evaluate_budget_goal expenses user_id budget now_ np na).shouldNotify = true) ↔
      (np ≤ (if 0 < budget.limit then
              sum_expenses expenses user_id budget.start_date budget.end_date none /
                budget.limit * 100 else 0) ∨
       na ≤ (if 0 < budget.limit then
              sum_expenses expenses user_id budget.start_date budget.end_date none /
                budget.limit * 100 else 0) -
            progress_ratio budget.start_date budget.end_date now_ * 100)) ∧
    (¬ (np ≤ (if 0 < budget.limit then
              sum_expenses expenses user_id budget.start_date budget.end_date none /
                budget.limit * 100 else 0) ∨
        na ≤ (if 0 < budget.limit then
              sum_expenses expenses user_id budget.start_date budget.end_date none /
                budget.limit * 100 else 0) -
             progress_ratio budget.start_date budget.end_date now_ * 100) →
      (evaluate_budget_goal expenses user_id budget now_ np na).status = GoalStatus.ON_TRACK ∧
      (evaluate_budget_goal expenses user_id budget now_ np na).shouldNotify = false) := by
  simp only [evaluate_budget_goal]
  rw [if_neg (not_lt.mpr h)]
  constructor
  · constructor
    · intro hw
      by_contra hc
      rw [if_neg hc] at hw
      exact GoalStatus.noConfusion hw.1
    · intro hc
      rw [if_pos hc]
      exact ⟨rfl, rfl⟩
  · intro hc
    rw [if_neg hc]
    exact ⟨rfl, rfl⟩

/-- Witness for C2: the spec's end-to-end scenario, `limit = 300`,
window `[0, 7)` (days), `now = 2` (Wednesday area), `spent = 250`:
`percent_used ≈ 83.3 ≥ 80`, hence `WARNING` and a notification. -/
theorem evaluate_budget_goal_warning_witness :
    (evaluate_budget_goal [⟨"u", "food", 250, 1⟩] "u" ⟨300, 0, 7⟩ 2 80 10).status =
      GoalStatus.WARNING ∧
    (evaluate_budget_goal [⟨"u", "food", 250, 1⟩] "u" ⟨300, 0, 7⟩ 2 80 10).shouldNotify = true := by
  have h := evaluate_budget_goal_warning_spec [⟨"u", "food", 250, 1⟩] "u" ⟨300, 0, 7⟩ 2 80 10
    (by norm_num [sum_expenses])
  refine h.1.mpr (Or.inl ?_)
  norm_num [sum_expenses]

/-- The status computed by `evaluate_budget_goal`, as a pure function of the
spent amount, the limit, the expected percent and the thresholds. -/
lemma evaluate_budget_goal_status_eq (expenses : List Expense) (user_id : String)
    (budget : Budget) (now_ np na : ℚ) :
    (evaluate_budget_goal expenses user_id budget now_ np na).status =
      (if budget.limit < sum_expenses expenses user_id budget.start_date budget.end_date none
       then GoalStatus.OVERSPENT
       else if np ≤ (if 0 < budget.limit then
                sum_expenses expenses user_id budget.start_date budget.end_date none /
                  budget.limit * 100 else 0) ∨
            na ≤ (if 0 < budget.limit then
                sum_expenses expenses user_id budget.start_date budget.end_date none /
                  budget.limit * 100 else 0) -
              progress_ratio budget.start_date budget.end_date now_ * 100
       then GoalStatus.WARNING else GoalStatus.ON_TRACK) := by
  simp only [evaluate_budget_goal]
  split_ifs <;> rfl

/-- Monotonicity of the pure classification in the spent amount. -/
lemma classify_mono (l np na ep : ℚ) {s1 s2 : ℚ} (h : s1 ≤ s2) :
    statusRank
        (if l < s1 then GoalStatus.OVERSPENT
         else if np ≤ (if 0 < l then s1 / l * 100 else 0) ∨
              na ≤ (if 0 < l then s1 / l * 100 else 0) - ep
         then GoalStatus.WARNING else GoalStatus.ON_TRACK) ≤
      statusRank
        (if l < s2 then GoalStatus.OVERSPENT
         else if np ≤ (if 0 < l then s2 / l * 100 else 0) ∨
              na ≤ (if 0 < l then s2 / l * 100 else 0) - ep
         then GoalStatus.WARNING else GoalStatus.ON_TRACK) := by
  have hpu : (if 0 < l then s1 / l * 100 else 0) ≤ (if 0 < l then s2 / l * 100 else 0) := by
    split_ifs with hl
    · gcongr
    · exact le_refl 0
  by_cases h1 : l < s1
  · rw [if_pos h1, if_pos (lt_of_lt_of_le h1 h)]
  · rw [if_neg h1]
    by_cases h2 : l < s2
    · rw [if_pos h2]
      split_ifs <;> simp [statusRank]
    · rw [if_neg h2]
      by_cases hw : np ≤ (if 0 < l then s1 / l * 100 else 0) ∨
          na ≤ (if 0 < l then s1 / l * 100 else 0) - ep
      · have hw2 : np ≤ (if 0 < l then s2 / l * 100 else 0) ∨
            na ≤ (if 0 < l then s2 / l * 100 else 0) - ep := by
          rcases hw with hw | hw
          · exact Or.inl (le_trans hw hpu)
          · exact Or.inr (by linarith)
        rw [if_pos hw, if_pos hw2]
      · rw [if_neg hw]
        split_ifs <;> simp [statusRank]

/-- C3: for a fixed budget (limit and window), fixed evaluation instant and
fixed thresholds, the status is monotone in the spent amount: a spend total
that is at most another's never classifies strictly later in the order
`ON_TRACK < WARNING < OVERSPENT`. -/
theorem evaluate_budget_goal_status_monotone (el1 el2 : List Expense) (user_id : String)
    (budget : Budget) (now_ np na : ℚ)
    (h : sum_expenses el1 user_id budget.start_date budget.end_date none ≤
         sum_expenses el2 user_id budget.start_date budget.end_date none) :
    statusRank (evaluate_budget_goal el1 user_id budget now_ np na).status ≤
      statusRank (evaluate_budget_goal el2 user_id budget now_ np na).status := by
  rw [evaluate_budget_goal_status_eq, evaluate_budget_goal_status_eq]
  exact classify_mono budget.limit np na
    (progress_ratio budget.start_date budget.end_date now_ * 100) h

/-- Witness for C3 at a concrete pair of spend totals `0 ≤ 5`. -/
theorem evaluate_budget_goal_status_monotone_witness :
    statusRank (evaluate_budget_goal [] "u" ⟨0, 0, 10⟩ 5 80 10).status ≤
      statusRank (evaluate_budget_goal [⟨"u", "food", 5, 1⟩] "u" ⟨0, 0, 10⟩ 5 80 10).status :=
  evaluate_budget_goal_status_monotone [] [⟨"u", "food", 5, 1⟩] "u" ⟨0, 0, 10⟩ 5 80 10
    (by norm_num [sum_expenses])

/-- C4: `progress_ratio` equals the clamped linear ratio
`clamp((min(now, end) - start) / (end - start), 0, 1)` whenever `end > start`,
always lies in `[0, 1]`, is `0` at `now = start`, `1` at `now = end` and for
every later `now`, and returns `1` for a degenerate window `end ≤ start`
instead of dividing by zero. -/
theorem progress_ratio_spec :
    (∀ start end_ now_ : ℚ, start < end_ →
        progress_ratio start end_ now_ =
          max 0 (min 1 ((min now_ end_ - start) / (end_ - start)))) ∧
    (∀ start end_ now_ : ℚ,
        0 ≤ progress_ratio start end_ now_ ∧ progress_ratio start end_ now_ ≤ 1) ∧
    (∀ start end_ : ℚ, start < end_ → progress_ratio start end_ start = 0) ∧
    (∀ start end_ : ℚ, start < end_ → progress_ratio start end_ end_ = 1) ∧
    (∀ start end_ now_ : ℚ, start < end_ → end_ < now_ → progress_ratio start end_ now_ = 1) ∧
    (∀ start end_ now_ : ℚ, end_ ≤ start → progress_ratio start end_ now_ = 1) := by
  have hclamp : ∀ start end_ now_ : ℚ, start < end_ →
      progress_ratio start end_ now_ =
        max 0 (min 1 ((min now_ end_ - start) / (end_ - start))) := by
    intro s e n h
    simp only [progress_ratio]
    rw [if_neg (by linarith)]
  refine ⟨hclamp, ?_, ?_, ?_, ?_, ?_⟩
  · intro s e n
    simp only [progress_ratio]
    split_ifs with h
    · exact ⟨zero_le_one, le_refl 1⟩
    · exact ⟨le_max_left 0 _, max_le zero_le_one (min_le_left 1 _)⟩
  · intro s e h
    rw [hclamp s e s h, min_eq_left h.le]
    simp
  · intro s e h
    rw [hclamp s e e h, min_self, div_self (by linarith)]
    simp
  · intro s e n h hn
    rw [hclamp s e n h, min_eq_right hn.le, div_self (by linarith)]
    simp
  · intro s e n h
    simp only [progress_ratio]
    rw [if_pos (by linarith)]

/-- Witness for C4 at the concrete window `[0, 7)` (and `[3, 3)` degenerate). -/
theorem progress_ratio_spec_witness :
    progress_ratio 0 7 2 = max 0 (min 1 ((min 2 7 - 0) / (7 - 0))) ∧
    progress_ratio 0 7 0 = 0 ∧
    progress_ratio 0 7 7 = 1 ∧
    progress_ratio 0 7 9 = 1 ∧
    progress_ratio 3 3 1 = 1 :=
  ⟨progress_ratio_spec.1 0 7 2 (by norm_num),
   progress_ratio_spec.2.2.1 0 7 (by norm_num),
   progress_ratio_spec.2.2.2.1 0 7 (by norm_num),
   progress_ratio_spec.2.2.2.2.1 0 7 9 (by norm_num) (by norm_num),
   progress_ratio_spec.2.2.2.2.2 3 3 1 (by norm_num)⟩

/-! ## Python `datetime` model

The window resolver manipulates timezone-aware Python `datetime` values:
`.weekday()`, `.replace(...)` and `±timedelta(days=k)`. CPython's `datetime`
works on the proleptic Gregorian calendar; `date.toordinal()` counts days
from 0001-01-01 = day 1, and `weekday()` is `(toordinal() + 6) % 7` with
Monday = 0. All instants in the analysed code are UTC (naive values are
reinterpreted as UTC by `ensure_tz`), so a datetime is just its seven
components and day arithmetic never crosses a DST boundary. -/

structure PyDateTime where
  year : Int
  month : Int
  day : Int
  hour : Int
  minute : Int
  second : Int
  microsecond : Int
deriving DecidableEq

/-- Gregorian leap-year rule, as in CPython `datetime.py`. -/
def isLeap (y : Int) : Bool := (y % 4 == 0 && y % 100 != 0) || (y % 400 == 0)

/-- Days in a month (CPython `_days_in_month`). -/
def daysInMonth (y m : Int) : Int :=
  if m = 2 then (if isLeap y then 29 else 28)
  else if m = 4 ∨ m = 6 ∨ m = 9 ∨ m = 11 then 30
  else 31

/-- Days in the year before the first of month `m` (CPython `_days_before_month`). -/
def daysBeforeMonth (y m : Int) : Int :=
  let c : Int := if isLeap y then 1 else 0
  if m ≤ 1 then 0
  else if m = 2 then 31
  else if m = 3 then 59 + c
  else if m = 4 then 90 + c
  else if m = 5 then 120 + c
  else if m = 6 then 151 + c
  else if m = 7 then 181 + c
  else if m = 8 then 212 + c
  else if m = 9 then 243 + c
  else if m = 10 then 273 + c
  else if m = 11 then 304 + c
  else 334 + c

/-- Days before January 1 of year `y` (CPython `_days_before_year`);
Python's floor division `//` coincides with Lean's Int division here. -/
def daysBeforeYear (y : Int) : Int :=
  365 * (y - 1) + (y - 1) / 4 - (y - 1) / 100 + (y - 1) / 400

/-- CPython `date.toordinal()`: 0001-01-01 is day 1. -/
def toordinal (d : PyDateTime) : Int :=
  daysBeforeYear d.year + daysBeforeMonth d.year d.month + d.day

/-- CPython `date.weekday()`: Monday = 0 ... Sunday = 6. -/
def weekday (d : PyDateTime) : Int := (toordinal d + 6) % 7

/-- The date components form a valid proleptic Gregorian date. -/
def DateValid (d : PyDateTime) : Prop :=
  1 ≤ d.month ∧ d.month ≤ 12 ∧ 1 ≤ d.day ∧ d.day ≤ daysInMonth d.year d.month

instance (d : PyDateTime) : Decidable (DateValid d) := by
  unfold DateValid; infer_instance

/-- Step one calendar day back, keeping the time of day: the date component
of `d - timedelta(days=1)`. -/
def prevDay (d : PyDateTime) : PyDateTime :=
  if 1 < d.day then { d with day := d.day - 1 }
  else if 1 < d.month then { d with month := d.month - 1, day := daysInMonth d.year (d.month - 1) }
  else { d with year := d.year - 1, month := 12, day := 31 }

/-- Step one calendar day forward, keeping the time of day: the date
component of `d + timedelta(days=1)`. -/
def nextDay (d : PyDateTime) : PyDateTime :=
  if d.day < daysInMonth d.year d.month then { d with day := d.day + 1 }
  else if d.month < 12 then { d with month := d.month + 1, day := 1 }
  else { d with year := d.year + 1, month := 1, day := 1 }

/-- `d - timedelta(days=k)` for a UTC datetime (time of day unchanged). -/
def subDays (d : PyDateTime) (k : Nat) : PyDateTime := prevDay^[k] d

/-- `d + timedelta(days=k)` for a UTC datetime (time of day unchanged). -/
def addDays (d : PyDateTime) (k : Nat) : PyDateTime := nextDay^[k] d

lemma one_le_daysInMonth (y m : Int) : 1 ≤ daysInMonth y m := by
  unfold daysInMonth
  split_ifs <;> norm_num

lemma daysBeforeMonth_step (y m : Int) (h2 : 2 ≤ m) (h12 : m ≤ 12) :
    daysBeforeMonth y m = daysBeforeMonth y (m - 1) + daysInMonth y (m - 1) := by
  interval_cases m <;> by_cases hy : isLeap y = true <;>
    norm_num [daysBeforeMonth, daysInMonth, hy]

lemma daysBeforeYear_succ (y : Int) :
    daysBeforeYear (y + 1) = daysBeforeYear y + 365 + (if isLeap y then 1 else 0) := by
  have hleap : isLeap y = true ↔ ((y % 4 = 0 ∧ ¬ y % 100 = 0) ∨ y % 400 = 0) := by
    simp [isLeap, Bool.or_eq_true, Bool.and_eq_true, beq_iff_eq, bne_iff_ne]
  unfold daysBeforeYear
  by_cases h : isLeap y = true
  · rw [if_pos h]
    rw [hleap] at h
    rcases h with ⟨h1, h2⟩ | h3 <;> omega
  · rw [if_neg h]
    rw [hleap] at h
    push_neg at h
    omega

lemma toordinal_prevDay (d : PyDateTime) (hv : DateValid d) :
    toordinal (prevDay d) = toordinal d - 1 := by
  obtain ⟨y, mo, da, hh, mi, se, us⟩ := d
  obtain ⟨h1, h2, h3, h4⟩ := hv
  try dsimp only at h1 h2 h3 h4
  unfold prevDay
  try dsimp only
  split_ifs with hd hm
  · simp only [toordinal]
    try dsimp only
    omega
  · simp only [toordinal]
    try dsimp only
    rw [daysBeforeMonth_step y mo (by omega) h2]
    omega
  · have hm1 : mo = 1 := by omega
    have hd1 : da = 1 := by omega
    have hsucc := daysBeforeYear_succ (y - 1)
    rw [sub_add_cancel] at hsucc
    have hdbm1 : daysBeforeMonth y 1 = 0 := by norm_num [daysBeforeMonth]
    have hdbm12 : daysBeforeMonth (y - 1) 12 = 334 + (if isLeap (y - 1) then 1 else 0) := by
      norm_num [daysBeforeMonth]
    simp only [toordinal]
    try dsimp only
    rw [hm1, hd1, hdbm1, hdbm12]
    by_cases hy : isLeap (y - 1) = true <;>
      simp only [hy, if_true, if_false] at hsucc ⊢ <;> omega

lemma toordinal_nextDay (d : PyDateTime) (hv : DateValid d) :
    toordinal (nextDay d) = toordinal d + 1 := by
  obtain ⟨y, mo, da, hh, mi, se, us⟩ := d
  obtain ⟨h1, h2, h3, h4⟩ := hv
  try dsimp only at h1 h2 h3 h4
  unfold nextDay
  try dsimp only
  split_ifs with hd hm
  · simp only [toordinal]
    try dsimp only
    omega
  · have hstep := daysBeforeMonth_step y (mo + 1) (by omega) (by omega)
    have hmm : mo + 1 - 1 = mo := by ring
    rw [hmm] at hstep
    simp only [toordinal]
    try dsimp only
    omega
  · have hm12 : mo = 12 := by omega
    have hdim12 : daysInMonth y 12 = 31 := by norm_num [daysInMonth]
    have hd31 : da = 31 := by
      rw [hm12, hdim12] at h4
      rw [hm12, hdim12] at hd
      omega
    have hsucc := daysBeforeYear_succ y
    have hdbm1 : daysBeforeMonth (y + 1) 1 = 0 := by norm_num [daysBeforeMonth]
    have hdbm12 : daysBeforeMonth y 12 = 334 + (if isLeap y then 1 else 0) := by
      norm_num [daysBeforeMonth]
    simp only [toordinal]
    try dsimp only
    rw [hm12, hd31, hdbm1, hdbm12]
    by_cases hy : isLeap y = true <;>
      simp only [hy, if_true, if_false] at hsucc ⊢ <;> omega

lemma dateValid_prevDay (d : PyDateTime) (hv : DateValid d) : DateValid (prevDay d) := by
  obtain ⟨y, mo, da, hh, mi, se, us⟩ := d
  obtain ⟨h1, h2, h3, h4⟩ := hv
  try dsimp only at h1 h2 h3 h4
  unfold prevDay
  try dsimp only
  split_ifs with hd hm <;> unfold DateValid <;> try dsimp only
  · exact ⟨h1, h2, by omega, by omega⟩
  · exact ⟨by omega, by omega, one_le_daysInMonth _ _, le_refl _⟩
  · exact ⟨by norm_num, by norm_num, by norm_num, by norm_num [daysInMonth]⟩

lemma dateValid_nextDay (d : PyDateTime) (hv : DateValid d) : DateValid (nextDay d) := by
  obtain ⟨y, mo, da, hh, mi, se, us⟩ := d
  obtain ⟨h1, h2, h3, h4⟩ := hv
  try dsimp only at h1 h2 h3 h4
  unfold nextDay
  try dsimp only
  split_ifs with hd hm <;> unfold DateValid <;> try dsimp only
  · exact ⟨h1, h2, by omega, by omega⟩
  · exact ⟨by omega, by omega, by norm_num, one_le_daysInMonth _ _⟩
  · exact ⟨by norm_num, by norm_num, by norm_num, by norm_num [daysInMonth]⟩

lemma dateValid_subDays (d : PyDateTime) (hv : DateValid d) (k : Nat) :
    DateValid (subDays d k) := by
  induction k with
  | zero => exact hv
  | succ n ih =>
    have hstep : subDays d (n + 1) = prevDay (subDays d n) :=
      Function.iterate_succ_apply' prevDay n d
    rw [hstep]
    exact dateValid_prevDay _ ih

lemma toordinal_subDays (d : PyDateTime) (hv : DateValid d) (k : Nat) :
    toordinal (subDays d k) = toordinal d - k := by
  induction k with
  | zero => simp [subDays]
  | succ n ih =>
    have hstep : subDays d (n + 1) = prevDay (subDays d n) :=
      Function.iterate_succ_apply' prevDay n d
    rw [hstep, toordinal_prevDay _ (dateValid_subDays d hv n), ih]
    push_cast
    ring

lemma dateValid_addDays (d : PyDateTime) (hv : DateValid d) (k : Nat) :
    DateValid (addDays d k) := by
  induction k with
  | zero => exact hv
  | succ n ih =>
    have hstep : addDays d (n + 1) = nextDay (addDays d n) :=
      Function.iterate_succ_apply' nextDay n d
    rw [hstep]
    exact dateValid_nextDay _ ih

lemma toordinal_addDays (d : PyDateTime) (hv : DateValid d) (k : Nat) :
    toordinal (addDays d k) = toordinal d + k := by
  induction k with
  | zero => simp [addDays]
  | succ n ih =>
    have hstep : addDays d (n + 1) = nextDay (addDays d n) :=
      Function.iterate_succ_apply' nextDay n d
    rw [hstep, toordinal_nextDay _ (dateValid_addDays d hv n), ih]
    push_cast
    ring

lemma subDays_subDays (d : PyDateTime) (a b : Nat) :
    subDays (subDays d a) b = subDays d (b + a) :=
  (Function.iterate_add_apply prevDay b a d).symm

lemma weekday_nonneg (d : PyDateTime) : 0 ≤ weekday d :=
  Int.emod_nonneg _ (by norm_num)

lemma weekday_lt_seven (d : PyDateTime) : weekday d < 7 :=
  Int.emod_lt_of_pos _ (by norm_num)

/-! ## Window resolution (financial_helper.py, lines 41-69;
stats_helper.py `_week_window` / `_month_window` are the same computations) -/

/-- The weekly `[start, end)` window: `start = (now - timedelta(days=now.weekday()))
.replace(hour=0, minute=0, second=0, microsecond=0)`, `end = start + timedelta(days=7)`. -/
def week_window (now : PyDateTime) : PyDateTime × PyDateTime :=
  let w := (weekday now).toNat
  let start := { subDays now w with hour := 0, minute := 0, second := 0, microsecond := 0 }
  (start, addDays start 7)

/-- The monthly `[start, end)` window: `start = now.replace(day=1, hour=0, ...)`;
`end` is the first of the next month, the year rolling over after December. -/
def month_window (now : PyDateTime) : PyDateTime × PyDateTime :=
  let start := { now with day := 1, hour := 0, minute := 0, second := 0, microsecond := 0 }
  let e := if start.month = 12 then { start with year := start.year + 1, month := 1 }
           else { start with month := start.month + 1 }
  (start, e)

/-- The yearly `[start, end)` window: `start = now.replace(month=1, day=1, hour=0, ...)`;
`end = start.replace(year=start.year + 1)`. -/
def year_window (now : PyDateTime) : PyDateTime × PyDateTime :=
  let start :=
    { now with month := 1, day := 1, hour := 0, minute := 0, second := 0, microsecond := 0 }
  (start, { start with year := start.year + 1 })

/-- `financial_helper.window_for_period`; an unknown period raises
`ValueError(f"Unknown period: {period}")`, modelled as `Except.error`. -/
def window_for_period (period : String) (now : PyDateTime) :
    Except String (PyDateTime × PyDateTime) :=
  if period = "weekly" then .ok (week_window now)
  else if period = "monthly" then .ok (month_window now)
  else if period = "yearly" then .ok (year_window now)
  else .error ("Unknown period: " ++ period)

lemma dateValid_mk_time_fields (d : PyDateTime) (hh mi se us : Int) (hv : DateValid d) :
    DateValid { d with hour := hh, minute := mi, second := se, microsecond := us } := hv

lemma week_window_spec (now : PyDateTime) (hv : DateValid now) :
    DateValid (week_window now).1 ∧
    (week_window now).1.hour = 0 ∧ (week_window now).1.minute = 0 ∧
    (week_window now).1.second = 0 ∧ (week_window now).1.microsecond = 0 ∧
    toordinal (week_window now).1 = toordinal now - weekday now ∧
    weekday (week_window now).1 = 0 ∧
    toordinal (week_window now).1 ≤ toordinal now ∧
    toordinal now < toordinal (week_window now).1 + 7 ∧
    (week_window now).2 = addDays (week_window now).1 7 ∧
    toordinal (week_window now).2 = toordinal (week_window now).1 + 7 ∧
    DateValid (week_window now).2 := by
  have hw : ((weekday now).toNat : Int) = weekday now :=
    Int.toNat_of_nonneg (weekday_nonneg now)
  have hvsub : DateValid (subDays now (weekday now).toNat) :=
    dateValid_subDays now hv _
  have hvs : DateValid (week_window now).1 := hvsub
  have hords : toordinal (week_window now).1 = toordinal now - weekday now := by
    show toordinal { subDays now (weekday now).toNat with
      hour := 0, minute := 0, second := 0, microsecond := 0 } = _
    have : toordinal { subDays now (weekday now).toNat with
        hour := 0, minute := 0, second := 0, microsecond := 0 } =
        toordinal (subDays now (weekday now).toNat) := rfl
    rw [this, toordinal_subDays now hv, hw]
  refine ⟨hvs, rfl, rfl, rfl, rfl, hords, ?_, ?_, ?_, rfl, ?_, ?_⟩
  · have hwd : weekday now = (toordinal now + 6) % 7 := rfl
    show (toordinal (week_window now).1 + 6) % 7 = 0
    rw [hords]
    omega
  · have := weekday_nonneg now
    omega
  · have := weekday_lt_seven now
    omega
  · exact toordinal_addDays _ hvs 7
  · exact dateValid_addDays _ hvs 7

/-- C5: `window_for_period` returns, per period, exactly the specified
half-open `[start, end)` window: for `"weekly"` the start is the most recent
Monday 00:00:00 UTC at or before `now` (the date `now.weekday()` days back,
Monday = 0) and the end is `start + 7 days`; for `"monthly"` the window runs
from the first of `now`'s month at midnight to the first of the next month
(year rolling over after December); for `"yearly"` from Jan 1 of `now`'s year
to Jan 1 of the next year; and every other period value yields the
`Unknown period` error instead of a window. -/
theorem window_for_period_spec (now : PyDateTime) (period : String) (hv : DateValid now) :
    (window_for_period "weekly" now = .ok (week_window now) ∧
      (week_window now).1.hour = 0 ∧ (week_window now).1.minute = 0 ∧
      (week_window now).1.second = 0 ∧ (week_window now).1.microsecond = 0 ∧
      weekday (week_window now).1 = 0 ∧
      toordinal (week_window now).1 = toordinal now - weekday now ∧
      toordinal (week_window now).1 ≤ toordinal now ∧
      toordinal now < toordinal (week_window now).1 + 7 ∧
      (week_window now).2 = addDays (week_window now).1 7 ∧
      toordinal (week_window now).2 = toordinal (week_window now).1 + 7) ∧
    (window_for_period "monthly" now =
      .ok (⟨now.year, now.month, 1, 0, 0, 0, 0⟩,
        if now.month = 12 then ⟨now.year + 1, 1, 1, 0, 0, 0, 0⟩
        else ⟨now.year, now.month + 1, 1, 0, 0, 0, 0⟩)) ∧
    (window_for_period "yearly" now =
      .ok (⟨now.year, 1, 1, 0, 0, 0, 0⟩, ⟨now.year + 1, 1, 1, 0, 0, 0, 0⟩)) ∧
    (period ≠ "weekly" → period ≠ "monthly" → period ≠ "yearly" →
      window_for_period period now = .error ("Unknown period: " ++ period)) := by
  obtain ⟨hvs, hh, hm, hs, hus, hord, hwd, hle, hlt, he, horde, hve⟩ := week_window_spec now hv
  refine ⟨⟨rfl, hh, hm, hs, hus, hwd, hord, hle, hlt, he, horde⟩, ?_, ?_, ?_⟩
  · obtain ⟨y, mo, da, h4, mi5, se6, us7⟩ := now
    show Except.ok (month_window _) = _
    simp only [month_window]
  · obtain ⟨y, mo, da, h4, mi5, se6, us7⟩ := now
    show Except.ok (year_window _) = _
    rfl
  · intro h1 h2 h3
    simp only [window_for_period, if_neg h1, if_neg h2, if_neg h3]

/-- Witness for C5 at the spec's example instant 2026-02-07 16:46 UTC
(a Saturday): the weekly window starts on Monday 2026-02-02 00:00 UTC and the
monthly window is `[2026-02-01, 2026-03-01)`. -/
theorem window_for_period_spec_witness :
    DateValid ⟨2026, 2, 7, 16, 46, 0, 0⟩ ∧
    window_for_period "monthly" ⟨2026, 2, 7, 16, 46, 0, 0⟩ =
      .ok (⟨2026, 2, 1, 0, 0, 0, 0⟩, ⟨2026, 3, 1, 0, 0, 0, 0⟩) ∧
    window_for_period "yearly" ⟨2026, 2, 7, 16, 46, 0, 0⟩ =
      .ok (⟨2026, 1, 1, 0, 0, 0, 0⟩, ⟨2027, 1, 1, 0, 0, 0, 0⟩) ∧
    window_for_period "daily" ⟨2026, 2, 7, 16, 46, 0, 0⟩ =
      .error ("Unknown period: " ++ "daily") := by
  have h := window_for_period_spec ⟨2026, 2, 7, 16, 46, 0, 0⟩ "daily" (by decide)
  refine ⟨by decide, ?_, ?_, h.2.2.2 (by decide) (by decide) (by decide)⟩
  · rw [h.2.1]
    norm_num
  · exact h.2.2.1

/-! ## Trend series (financial_helper.py, lines 260-297) and weekly spend
series (stats_helper.py, lines 127-169) -/

/-- One element of the `trend_series` output: the window bounds and the
summed total for that window. -/
structure TrendEntry where
  start : PyDateTime
  end_ : PyDateTime
  total : ℚ
deriving DecidableEq

/-- The "move one period back" step at the bottom of the `trend_series` loop:
weekly shifts both bounds a week back; monthly re-anchors the resolver at
noon of the day before the window start; yearly re-anchors at June 1 of the
previous year. -/
def trend_step (period : String) (cur_start : PyDateTime) : PyDateTime × PyDateTime :=
  if period = "weekly" then (subDays cur_start 7, cur_start)
  else if period = "monthly" then month_window { prevDay cur_start with hour := 12 }
  else year_window { cur_start with year := cur_start.year - 1, month := 6, day := 1 }

/-- The `for _ in range(buckets)` loop of `trend_series`, appending one entry
per window and stepping back; `sumExp` stands for the `sum_expenses`
collaborator call on a window. -/
def trend_series_loop (sumExp : PyDateTime → PyDateTime → ℚ) (period : String) :
    Nat → PyDateTime → PyDateTime → List TrendEntry
  | 0, _, _ => []
  | n + 1, cur_start, cur_end =>
    ⟨cur_start, cur_end, sumExp cur_start cur_end⟩ ::
      trend_series_loop sumExp period n (trend_step period cur_start).1
        (trend_step period cur_start).2

/-- `financial_helper.trend_series`: resolve the current window, walk
backwards `buckets` windows, then reverse so the series reads old → new. -/
def trend_series (sumExp : PyDateTime → PyDateTime → ℚ) (period : String) (buckets : Nat)
    (now : PyDateTime) : Except String (List TrendEntry) := do
  let w ← window_for_period period now
  pure (trend_series_loop sumExp period buckets w.1 w.2).reverse

/-- One point of `weekly_spend_series`: `x` is the week start, `y` the total. -/
structure SeriesPoint where
  x : PyDateTime
  y : ℚ
deriving DecidableEq

/-- The `for _ in range(weeks)` loop of `weekly_spend_series` (the category
filter of the query is folded into `sumExp`). -/
def weekly_spend_series_loop (sumExp : PyDateTime → PyDateTime → ℚ) :
    Nat → PyDateTime → PyDateTime → List SeriesPoint
  | 0, _, _ => []
  | n + 1, cur_start, cur_end =>
    ⟨cur_start, sumExp cur_start cur_end⟩ ::
      weekly_spend_series_loop sumExp n (subDays cur_start 7) cur_start

/-- `stats_helper.weekly_spend_series`: last `weeks` weekly totals, old → new. -/
def weekly_spend_series (sumExp : PyDateTime → PyDateTime → ℚ) (weeks : Nat)
    (now : PyDateTime) : List SeriesPoint :=
  (weekly_spend_series_loop sumExp weeks (week_window now).1 (week_window now).2).reverse

lemma trend_step_weekly (cs : PyDateTime) : trend_step "weekly" cs = (subDays cs 7, cs) := rfl

lemma trend_series_loop_weekly_succ (sumExp : PyDateTime → PyDateTime → ℚ) (n : Nat)
    (cs ce : PyDateTime) :
    trend_series_loop sumExp "weekly" (n + 1) cs ce =
      ⟨cs, ce, sumExp cs ce⟩ :: trend_series_loop sumExp "weekly" n (subDays cs 7) cs := by
  simp only [trend_series_loop, trend_step_weekly]

lemma trend_series_loop_length (sumExp : PyDateTime → PyDateTime → ℚ) (period : String) :
    ∀ (n : Nat) (cs ce : PyDateTime), (trend_series_loop sumExp period n cs ce).length = n := by
  intro n
  induction n with
  | zero => intro cs ce; rfl
  | succ m ih => intro cs ce; simp [trend_series_loop, ih]

/-- The end bound of the `i`-th window (new → old order) produced by the
weekly loop started at `(cs, ce)`. -/
def wkEnd (cs ce : PyDateTime) (i : Nat) : PyDateTime :=
  if i = 0 then ce else subDays cs (7 * i - 7)

lemma trend_series_loop_weekly_getElem (sumExp : PyDateTime → PyDateTime → ℚ) :
    ∀ (n : Nat) (cs ce : PyDateTime) (i : Nat), i < n →
      (trend_series_loop sumExp "weekly" n cs ce)[i]? =
        some ⟨subDays cs (7 * i), wkEnd cs ce i,
          sumExp (subDays cs (7 * i)) (wkEnd cs ce i)⟩ := by
  intro n
  induction n with
  | zero => intro cs ce i hi; exact absurd hi (Nat.not_lt_zero i)
  | succ m ih =>
    intro cs ce i hi
    rw [trend_series_loop_weekly_succ]
    cases i with
    | zero => simp [wkEnd, subDays]
    | succ j =>
      rw [List.getElem?_cons_succ, ih (subDays cs 7) cs j (by omega)]
      have h1 : subDays (subDays cs 7) (7 * j) = subDays cs (7 * (j + 1)) := by
        rw [subDays_subDays]
        congr 1
      have h2 : wkEnd (subDays cs 7) cs j = wkEnd cs ce (j + 1) := by
        unfold wkEnd
        by_cases hj : j = 0
        · subst hj
          simp [subDays]
        · rw [if_neg hj, if_neg (by omega), subDays_subDays]
          congr 1
          omega
      rw [h1, h2]

lemma weekly_spend_series_loop_length (sumExp : PyDateTime → PyDateTime → ℚ) :
    ∀ (n : Nat) (cs ce : PyDateTime), (weekly_spend_series_loop sumExp n cs ce).length = n := by
  intro n
  induction n with
  | zero => intro cs ce; rfl
  | succ m ih => intro cs ce; simp [weekly_spend_series_loop, ih]

lemma weekly_spend_series_loop_getElem (sumExp : PyDateTime → PyDateTime → ℚ) :
    ∀ (n : Nat) (cs ce : PyDateTime) (i : Nat), i < n →
      (weekly_spend_series_loop sumExp n cs ce)[i]? =
        some ⟨subDays cs (7 * i), sumExp (subDays cs (7 * i)) (wkEnd cs ce i)⟩ := by
  intro n
  induction n with
  | zero => intro cs ce i hi; exact absurd hi (Nat.not_lt_zero i)
  | succ m ih =>
    intro cs ce i hi
    simp only [weekly_spend_series_loop]
    cases i with
    | zero => simp [wkEnd, subDays]
    | succ j =>
      rw [List.getElem?_cons_succ, ih (subDays cs 7) cs j (by omega)]
      have h1 : subDays (subDays cs 7) (7 * j) = subDays cs (7 * (j + 1)) := by
        rw [subDays_subDays]
        congr 1
      have h2 : wkEnd (subDays cs 7) cs j = wkEnd cs ce (j + 1) := by
        unfold wkEnd
        by_cases hj : j = 0
        · subst hj
          simp [subDays]
        · rw [if_neg hj, if_neg (by omega), subDays_subDays]
          congr 1
          omega
      rw [h1, h2]

/-- C7: for every bucket count `n ≥ 1` and evaluation instant, the weekly
trend series (`trend_series` with period `"weekly"`, and
`weekly_spend_series`) has exactly `n` entries ordered oldest to newest
(window starts strictly increasing), with pairwise non-overlapping,
contiguous windows (each entry's end is the next entry's start), each window
exactly 7 days long, and the final entry is the current weekly window, which
contains `now`. -/
theorem trend_series_weekly_spec (sumExp sumExpCat : PyDateTime → PyDateTime → ℚ)
    (n : Nat) (now : PyDateTime) (hn : 1 ≤ n) (hv : DateValid now) :
    ∃ series : List TrendEntry,
      trend_series sumExp "weekly" n now = .ok series ∧
      series.length = n ∧
      (∀ (i : Nat) (a b : TrendEntry), series[i]? = some a → series[i + 1]? = some b →
        a.end_ = b.start) ∧
      (∀ (i j : Nat) (a b : TrendEntry), i < j → series[i]? = some a → series[j]? = some b →
        toordinal a.start < toordinal b.start ∧ toordinal a.end_ ≤ toordinal b.start) ∧
      (∀ a ∈ series, toordinal a.end_ = toordinal a.start + 7) ∧
      series[n - 1]? = some ⟨(week_window now).1, (week_window now).2,
        sumExp (week_window now).1 (week_window now).2⟩ ∧
      toordinal (week_window now).1 ≤ toordinal now ∧
      toordinal now < toordinal (week_window now).1 + 7 ∧
      (weekly_spend_series sumExpCat n now).length = n ∧
      (∀ (i : Nat) (a b : SeriesPoint), (weekly_spend_series sumExpCat n now)[i]? = some a →
        (weekly_spend_series sumExpCat n now)[i + 1]? = some b →
        toordinal b.x = toordinal a.x + 7) ∧
      (∀ (i j : Nat) (a b : SeriesPoint), i < j →
        (weekly_spend_series sumExpCat n now)[i]? = some a →
        (weekly_spend_series sumExpCat n now)[j]? = some b →
        toordinal a.x < toordinal b.x) ∧
      (weekly_spend_series sumExpCat n now)[n - 1]? =
        some ⟨(week_window now).1, sumExpCat (week_window now).1 (week_window now).2⟩ := by
  obtain ⟨hvs, hh, hm, hs, hus, hord, hwd, hle, hlt, he, horde, hve⟩ := week_window_spec now hv
  refine ⟨(trend_series_loop sumExp "weekly" n (week_window now).1
    (week_window now).2).reverse, rfl, ?_⟩
  have hlenL : (trend_series_loop sumExp "weekly" n (week_window now).1
      (week_window now).2).length = n := trend_series_loop_length sumExp "weekly" n _ _
  have hlenP : (weekly_spend_series_loop sumExpCat n (week_window now).1
      (week_window now).2).length = n := weekly_spend_series_loop_length sumExpCat n _ _
  have hidx : ∀ i, i < n →
      (trend_series_loop sumExp "weekly" n (week_window now).1
        (week_window now).2).reverse[i]? =
        some ⟨subDays (week_window now).1 (7 * (n - 1 - i)),
          wkEnd (week_window now).1 (week_window now).2 (n - 1 - i),
          sumExp (subDays (week_window now).1 (7 * (n - 1 - i)))
            (wkEnd (week_window now).1 (week_window now).2 (n - 1 - i))⟩ := by
    intro i hi
    rw [List.getElem?_reverse (by rw [hlenL]; exact hi), hlenL]
    exact trend_series_loop_weekly_getElem sumExp n _ _ (n - 1 - i) (by omega)
  have hidxP : ∀ i, i < n →
      (weekly_spend_series sumExpCat n now)[i]? =
        some ⟨subDays (week_window now).1 (7 * (n - 1 - i)),
          sumExpCat (subDays (week_window now).1 (7 * (n - 1 - i)))
            (wkEnd (week_window now).1 (week_window now).2 (n - 1 - i))⟩ := by
    intro i hi
    show (weekly_spend_series_loop sumExpCat n (week_window now).1
      (week_window now).2).reverse[i]? = _
    rw [List.getElem?_reverse (by rw [hlenP]; exact hi), hlenP]
    exact weekly_spend_series_loop_getElem sumExpCat n _ _ (n - 1 - i) (by omega)
  have hsome : ∀ (l : List TrendEntry) (i : Nat) (a : TrendEntry),
      l[i]? = some a → i < l.length := by
    intro l i a ha
    by_contra hcon
    push_neg at hcon
    rw [List.getElem?_eq_none hcon] at ha
    exact Option.noConfusion ha
  have hsomeP : ∀ (l : List SeriesPoint) (i : Nat) (a : SeriesPoint),
      l[i]? = some a → i < l.length := by
    intro l i a ha
    by_contra hcon
    push_neg at hcon
    rw [List.getElem?_eq_none hcon] at ha
    exact Option.noConfusion ha
  have hordk : ∀ k : Nat, toordinal (subDays (week_window now).1 (7 * k)) =
      toordinal (week_window now).1 - 7 * k := by
    intro k
    rw [toordinal_subDays _ hvs]
    push_cast
    ring
  have hordEnd : ∀ k : Nat, toordinal (wkEnd (week_window now).1 (week_window now).2 k) =
      toordinal (week_window now).1 - 7 * k + 7 := by
    intro k
    unfold wkEnd
    by_cases hk : k = 0
    · subst hk
      rw [if_pos rfl, horde]
      push_cast
      ring
    · rw [if_neg hk, toordinal_subDays _ hvs]
      have hk1 : 1 ≤ k := by omega
      omega
  refine ⟨by simp [hlenL], ?_, ?_, ?_, ?_, hle, hlt, by simp [weekly_spend_series, hlenP],
    ?_, ?_, ?_⟩
  · -- contiguity
    intro i a b ha hb
    have hi1 : i + 1 < n := by
      have := hsome _ _ _ hb
      simpa [hlenL] using this
    rw [hidx i (by omega)] at ha
    rw [hidx (i + 1) hi1] at hb
    have ha' := Option.some.inj ha
    have hb' := Option.some.inj hb
    rw [← ha', ← hb']
    show wkEnd (week_window now).1 (week_window now).2 (n - 1 - i) =
      subDays (week_window now).1 (7 * (n - 1 - (i + 1)))
    unfold wkEnd
    rw [if_neg (by omega)]
    congr 1
    omega
  · -- strict increase and non-overlap
    intro i j a b hij ha hb
    have hj : j < n := by
      have := hsome _ _ _ hb
      simpa [hlenL] using this
    rw [hidx i (by omega)] at ha
    rw [hidx j hj] at hb
    rw [← Option.some.inj ha, ← Option.some.inj hb]
    constructor
    · show toordinal (subDays (week_window now).1 (7 * (n - 1 - i))) <
        toordinal (subDays (week_window now).1 (7 * (n - 1 - j)))
      rw [hordk, hordk]
      omega
    · show toordinal (wkEnd (week_window now).1 (week_window now).2 (n - 1 - i)) ≤
        toordinal (subDays (week_window now).1 (7 * (n - 1 - j)))
      rw [hordEnd, hordk]
      omega
  · -- every window is 7 days long
    intro a ha
    rw [List.mem_iff_getElem?] at ha
    obtain ⟨i, hi⟩ := ha
    have hin : i < n := by
      have := hsome _ _ _ hi
      simpa [hlenL] using this
    rw [hidx i hin] at hi
    rw [← Option.some.inj hi]
    show toordinal (wkEnd (week_window now).1 (week_window now).2 (n - 1 - i)) =
      toordinal (subDays (week_window now).1 (7 * (n - 1 - i))) + 7
    rw [hordEnd, hordk]
  · -- the last entry is the current weekly window
    rw [hidx (n - 1) (by omega)]
    have h0 : n - 1 - (n - 1) = 0 := by omega
    rw [h0]
    simp [wkEnd, subDays]
  · -- weekly_spend_series: consecutive starts are a week apart
    intro i a b ha hb
    have hi1 : i + 1 < n := by
      have := hsomeP _ _ _ hb
      simpa [weekly_spend_series, hlenP] using this
    rw [hidxP i (by omega)] at ha
    rw [hidxP (i + 1) hi1] at hb
    rw [← Option.some.inj ha, ← Option.some.inj hb]
    show toordinal (subDays (week_window now).1 (7 * (n - 1 - (i + 1)))) =
      toordinal (subDays (week_window now).1 (7 * (n - 1 - i))) + 7
    rw [hordk, hordk]
    omega
  · -- weekly_spend_series: strictly increasing starts
    intro i j a b hij ha hb
    have hj : j < n := by
      have := hsomeP _ _ _ hb
      simpa [weekly_spend_series, hlenP] using this
    rw [hidxP i (by omega)] at ha
    rw [hidxP j hj] at hb
    rw [← Option.some.inj ha, ← Option.some.inj hb]
    show toordinal (subDays (week_window now).1 (7 * (n - 1 - i))) <
      toordinal (subDays (week_window now).1 (7 * (n - 1 - j)))
    rw [hordk, hordk]
    omega
  · -- weekly_spend_series: last point is the current week start
    rw [hidxP (n - 1) (by omega)]
    have h0 : n - 1 - (n - 1) = 0 := by omega
    rw [h0]
    simp [wkEnd, subDays]

/-- Witness for C7 at `n = 2`, `now` = 2026-02-07 16:46 UTC. -/
theorem trend_series_weekly_spec_witness :
    ∃ series : List TrendEntry,
      trend_series (fun _ _ => (0 : ℚ)) "weekly" 2 ⟨2026, 2, 7, 16, 46, 0, 0⟩ = .ok series ∧
      series.length = 2 := by
  obtain ⟨series, h1, h2, -⟩ :=
    trend_series_weekly_spec (fun _ _ => (0 : ℚ)) (fun _ _ => (0 : ℚ)) 2
      ⟨2026, 2, 7, 16, 46, 0, 0⟩ (by norm_num) (by decide)
  exact ⟨series, h1, h2⟩

/-! ## Pie chart aggregation (stats_helper.py, lines 47-121) -/

/-- `stats_helper.pie_expense_by_category`, starting from the grouped,
descending-sorted `(category, total)` rows delivered by the database query.
The result is the returned `total` together with the `slices` list (each
slice a `(label, value)` pair); the empty query result yields `(0, [])`. -/
def pie_expense_by_category (pairs : List (String × ℚ)) (top_n : ℤ)
    (include_other : Bool) : ℚ × List (String × ℚ) :=
  let total := (pairs.map Prod.snd).sum
  if pairs.isEmpty then (0, [])
  else if 0 < top_n ∧ top_n < (pairs.length : ℤ) then
    let top := pairs.take top_n.toNat
    let rest := pairs.drop top_n.toNat
    let other_sum := (rest.map Prod.snd).sum
    if include_other = true ∧ 0 < other_sum then (total, top ++ [("Other", other_sum)])
    else (total, top)
  else (total, pairs)

/-- Seven descending category totals summing to 500, the example of the spec. -/
def pieExample7 : List (String × ℚ) :=
  [("a", 120), ("b", 100), ("c", 90), ("d", 80), ("e", 60), ("f", 30), ("g", 20)]

lemma pieExample7_eval_true :
    pie_expense_by_category pieExample7 5 true =
      (500, [("a", 120), ("b", 100), ("c", 90), ("d", 80), ("e", 60), ("Other", 50)]) := by
  have h1 : List.take (Int.toNat (5 : ℤ)) pieExample7 =
      [("a", (120 : ℚ)), ("b", 100), ("c", 90), ("d", 80), ("e", 60)] := rfl
  have h2 : List.drop (Int.toNat (5 : ℤ)) pieExample7 = [("f", (30 : ℚ)), ("g", 20)] := rfl
  have h3 : pieExample7.isEmpty = false := rfl
  have h4 : pieExample7.length = 7 := rfl
  have h5 : pieExample7.map Prod.snd = [(120 : ℚ), 100, 90, 80, 60, 30, 20] := rfl
  simp only [pie_expense_by_category, h1, h2, h3, h4, h5]
  norm_num

lemma pieExample7_eval_false :
    pie_expense_by_category pieExample7 5 false =
      (500, [("a", 120), ("b", 100), ("c", 90), ("d", 80), ("e", 60)]) := by
  have h1 : List.take (Int.toNat (5 : ℤ)) pieExample7 =
      [("a", (120 : ℚ)), ("b", 100), ("c", 90), ("d", 80), ("e", 60)] := rfl
  have h2 : List.drop (Int.toNat (5 : ℤ)) pieExample7 = [("f", (30 : ℚ)), ("g", 20)] := rfl
  have h3 : pieExample7.isEmpty = false := rfl
  have h4 : pieExample7.length = 7 := rfl
  have h5 : pieExample7.map Prod.snd = [(120 : ℚ), 100, 90, 80, 60, 30, 20] := rfl
  simp only [pie_expense_by_category, h1, h2, h3, h4, h5]
  norm_num

/-- C6 counterexample: with `include_other = false` and more than `top_n`
positive categories, the "Other" remainder is dropped from the slices, so the
slice values do not sum to the returned total (here 450 versus 500). -/
theorem pie_expense_by_category_conservation_cex :
    ((pie_expense_by_category pieExample7 5 false).2.map Prod.snd).sum ≠
      (pie_expense_by_category pieExample7 5 false).1 := by
  rw [pieExample7_eval_false]
  norm_num

/-- C6 (amended): slice conservation — the slice values summing to the
returned total — holds for every call with `include_other = true` (given the
non-negative per-category totals the data model guarantees); when
`top_n ≤ 0` no truncation occurs (the slices are exactly the query rows);
an empty window yields total `0` and no slices; and the spec's example
(7 categories summing to 500, `top_n = 5`, `include_other = true`) yields
exactly 6 slices summing to 500. -/
theorem pie_expense_by_category_spec :
    (∀ (pairs : List (String × ℚ)) (top_n : ℤ),
        (∀ v ∈ pairs.map Prod.snd, 0 ≤ v) →
        ((pie_expense_by_category pairs top_n true).2.map Prod.snd).sum =
          (pie_expense_by_category pairs top_n true).1) ∧
    (∀ (pairs : List (String × ℚ)) (top_n : ℤ) (include_other : Bool),
        top_n ≤ 0 → (pie_expense_by_category pairs top_n include_other).2 = pairs) ∧
    (∀ (top_n : ℤ) (include_other : Bool),
        pie_expense_by_category [] top_n include_other = (0, [])) ∧
    (pie_expense_by_category pieExample7 5 true).1 = 500 ∧
    (pie_expense_by_category pieExample7 5 true).2.length = 6 ∧
    ((pie_expense_by_category pieExample7 5 true).2.map Prod.snd).sum = 500 := by
  refine ⟨?_, ?_, ?_, ?_, ?_, ?_⟩
  · intro pairs top_n hnn
    simp only [pie_expense_by_category]
    split_ifs with hemp htr hoth
    · rw [List.isEmpty_iff] at hemp
      simp [hemp]
    · -- "Other" slice emitted: take-sum + other_sum = total
      have hsplit : (pairs.map Prod.snd).sum =
          ((pairs.take top_n.toNat).map Prod.snd).sum +
            ((pairs.drop top_n.toNat).map Prod.snd).sum := by
        conv_lhs => rw [← List.take_append_drop top_n.toNat pairs]
        rw [List.map_append, List.sum_append]
      simp only [List.map_append, List.sum_append, List.map_cons, List.map_nil,
        List.sum_cons, List.sum_nil]
      rw [hsplit]
      ring
    · -- no "Other" slice: the dropped remainder sums to 0
      have hrest : 0 ≤ ((pairs.drop top_n.toNat).map Prod.snd).sum := by
        apply List.sum_nonneg
        intro v hvmem
        apply hnn
        have hmem2 : v ∈ (pairs.map Prod.snd).drop top_n.toNat := by
          rw [← List.map_drop]
          exact hvmem
        exact List.mem_of_mem_drop hmem2
      have hnotpos : ¬ 0 < ((pairs.drop top_n.toNat).map Prod.snd).sum := by
        intro hpos
        exact hoth ⟨by trivial, hpos⟩
      have hzero : ((pairs.drop top_n.toNat).map Prod.snd).sum = 0 :=
        le_antisymm (not_lt.mp hnotpos) hrest
      have hsplit : (pairs.map Prod.snd).sum =
          ((pairs.take top_n.toNat).map Prod.snd).sum +
            ((pairs.drop top_n.toNat).map Prod.snd).sum := by
        conv_lhs => rw [← List.take_append_drop top_n.toNat pairs]
        rw [List.map_append, List.sum_append]
      rw [hsplit, hzero]
      ring
    · rfl
  · intro pairs top_n io hle
    simp only [pie_expense_by_category]
    split_ifs with hemp htr hoth
    · rw [List.isEmpty_iff] at hemp
      simp [hemp]
    · exact absurd htr.1 (by omega)
    · exact absurd htr.1 (by omega)
    · rfl
  · intro top_n io
    rfl
  · rw [pieExample7_eval_true]
  · rw [pieExample7_eval_true]
    rfl
  · rw [pieExample7_eval_true]
    norm_num

/-- Witness for C6 (amended): conservation and the no-truncation case at a
concrete one-category input. -/
theorem pie_expense_by_category_spec_witness :
    ((pie_expense_by_category [("a", (3 : ℚ))] 5 true).2.map Prod.snd).sum =
      (pie_expense_by_category [("a", (3 : ℚ))] 5 true).1 ∧
    (pie_expense_by_category [("a", (3 : ℚ))] (-1) false).2 = [("a", (3 : ℚ))] :=
  ⟨pie_expense_by_category_spec.1 [("a", (3 : ℚ))] 5 (by norm_num),
   pie_expense_by_category_spec.2.1 [("a", (3 : ℚ))] (-1) false (by norm_num)⟩

/-! ## Income buckets and the cohort/region comparison
(financial_helper.py, lines 349-374 and 425-512) -/

/-- `financial_helper.INCOME_BUCKETS`: fixed ordered half-open income ranges;
the top bucket's upper bound is `10^18`, standing in for "no upper bound". -/
def INCOME_BUCKETS : List (ℤ × ℤ) :=
  [(0, 2500), (2500, 4000), (4000, 6000), (6000, 9000), (9000, 13000), (13000, 10 ^ 18)]

/-- `financial_helper.income_bucket_label`: the label of the first bucket
with `lo ≤ x < hi` (`"{lo}+"` when `hi ≥ 10^18`, else `"{lo}-{hi}"`);
`None` income, and an income outside every bucket, yield no label. -/
def income_bucket_label (monthly_income : Option ℚ) : Option String :=
  match monthly_income with
  | none => none
  | some x =>
    (INCOME_BUCKETS.find? fun p => decide ((p.1 : ℚ) ≤ x) && decide (x < (p.2 : ℚ))).map
      fun p => if (10 : ℤ) ^ 18 ≤ p.2 then toString p.1 ++ "+"
               else toString p.1 ++ "-" ++ toString p.2

/-- Python `float(s)` restricted to the non-negative integer literals
occurring in bucket labels; any other string (on which `float` would raise,
making `income_bucket_range` fail) yields `none`. -/
def pyFloatOfDigits (s : String) : Option ℚ :=
  if s.data ≠ [] ∧ s.data.all Char.isDigit then
    some ((s.data.foldl (fun acc c => acc * 10 + (c.toNat - 48)) 0 : ℕ) : ℚ)
  else none

/-- `financial_helper.income_bucket_range`: parse `"{lo}-{hi}"` to
`(lo, some hi)` and `"{lo}+"` to `(lo, none)` (`none` standing for `inf`);
a label that `float()` cannot parse or that does not split into exactly two
parts makes the Python function raise, modelled as `none`. String operations
are modelled on the character list of the label. -/
def income_bucket_range (label : String) : Option (ℚ × Option ℚ) :=
  if label.data.getLast? = some '+' then
    (pyFloatOfDigits ⟨label.data.dropLast⟩).map fun lo => (lo, none)
  else
    match (label.data.splitOn '-').map (fun cs => String.mk cs) with
    | [lo_s, hi_s] =>
      match pyFloatOfDigits lo_s, pyFloatOfDigits hi_s with
      | some lo, some hi => some (lo, some hi)
      | _, _ => none
    | _ => none

/-- The possible feedback messages of `compare_user_to_cohort_in_region`,
by their classification branch (the surrounding text is templated flavour,
post-processed by the external LLM call). -/
inductive CohortMessage
  | userNotFound
  | missingLocation
  | missingIncome
  | notEnoughPeers
  | peerAvgUnavailable
  | spentMore
  | spentLess
  | closeToAverage
deriving DecidableEq

/-- `delta_pct = (user_spent - peer_avg) / peer_avg * 100` when
`peer_avg > 0`, else `0` (guarded division), as computed inline in
`compare_user_to_cohort_in_region`. -/
def cohort_delta_pct (user_spent peer_avg : ℚ) : ℚ :=
  if 0 < peer_avg then (user_spent - peer_avg) / peer_avg * 100 else 0

/-- The message-selection branch of `compare_user_to_cohort_in_region`,
given the user's spend and the peer statistics. -/
def cohort_classify (user_spent peer_avg : ℚ) (peer_users min_peers : ℤ) : CohortMessage :=
  if peer_users < min_peers then .notEnoughPeers
  else if peer_avg ≤ 0 then .peerAvgUnavailable
  else if 15 ≤ cohort_delta_pct user_spent peer_avg then .spentMore
  else if cohort_delta_pct user_spent peer_avg ≤ -15 then .spentLess
  else .closeToAverage

/-- One row of the `users` table; only the columns read by
`compare_user_to_cohort_in_region` are modelled. An absent or empty
`location` is falsy in Python's `if not u.location`. -/
structure User where
  location : Option String
  monthly_income : Option ℚ
deriving DecidableEq

/-- The feedback record: result `type` tag and the selected message. -/
structure CohortFeedback where
  type_ : String
  message : CohortMessage
deriving DecidableEq

/-- `financial_helper.compare_user_to_cohort_in_region`. The collaborator
results are inputs: `user` is `db.get_user_by_id(user_id)`, `user_spent` the
`sum_expenses` total over the period window, `(peer_avg, peer_users)` the
`cohort_region_peer_stats` aggregate for the user's location and bucket. -/
def compare_user_to_cohort_in_region (user : Option User) (user_spent : ℚ)
    (peer_avg : ℚ) (peer_users : ℤ) (period : String) (now : PyDateTime)
    (min_peers : ℤ) : Except String CohortFeedback :=
  match user with
  | none => .ok ⟨"COHORT_REGION_FEEDBACK", .userNotFound⟩
  | some u =>
    if u.location = none ∨ u.location = some "" then
      .ok ⟨"COHORT_REGION_FEEDBACK", .missingLocation⟩
    else
      match income_bucket_label u.monthly_income with
      | none => .ok ⟨"COHORT_REGION_FEEDBACK", .missingIncome⟩
      | some _bucket =>
        match window_for_period period now with
        | .error e => .error e
        | .ok _w =>
          .ok ⟨"COHORT_REGION_FEEDBACK",
            cohort_classify user_spent peer_avg peer_users min_peers⟩

/-! ## C8-C10 -/

/-- C8: when the user is found with a location and an income bucket and the
peer data is usable (`peer_users ≥ min_peers`, `peer_avg > 0`),
`compare_user_to_cohort_in_region` classifies by
`delta_pct = (user_spent - peer_avg) / peer_avg * 100`: the "spent more"
message exactly when `delta_pct ≥ 15` (boundary inclusive), "spent less"
exactly when `delta_pct ≤ -15`, and "close to average" otherwise; and for
`peer_avg ≤ 0` the guarded division makes `delta_pct` equal `0`. -/
theorem compare_user_to_cohort_thresholds (u : User) (user_spent peer_avg : ℚ)
    (peer_users min_peers : ℤ) (period : String) (now : PyDateTime)
    (hloc : ¬(u.location = none ∨ u.location = some ""))
    (hbucket : income_bucket_label u.monthly_income ≠ none)
    (hperiod : period = "weekly" ∨ period = "monthly" ∨ period = "yearly")
    (hpeers : min_peers ≤ peer_users) (havg : 0 < peer_avg) :
    compare_user_to_cohort_in_region (some u) user_spent peer_avg peer_users period now
        min_peers =
      .ok ⟨"COHORT_REGION_FEEDBACK",
        cohort_classify user_spent peer_avg peer_users min_peers⟩ ∧
    (cohort_classify user_spent peer_avg peer_users min_peers = CohortMessage.spentMore ↔
      15 ≤ cohort_delta_pct user_spent peer_avg) ∧
    (cohort_classify user_spent peer_avg peer_users min_peers = CohortMessage.spentLess ↔
      cohort_delta_pct user_spent peer_avg ≤ -15) ∧
    (cohort_classify user_spent peer_avg peer_users min_peers = CohortMessage.closeToAverage ↔
      (-15 < cohort_delta_pct user_spent peer_avg ∧
        cohort_delta_pct user_spent peer_avg < 15)) ∧
    (∀ s a : ℚ, a ≤ 0 → cohort_delta_pct s a = 0) := by
  have hcc : cohort_classify user_spent peer_avg peer_users min_peers =
      (if 15 ≤ cohort_delta_pct user_spent peer_avg then CohortMessage.spentMore
       else if cohort_delta_pct user_spent peer_avg ≤ -15 then CohortMessage.spentLess
       else CohortMessage.closeToAverage) := by
    unfold cohort_classify
    rw [if_neg (not_lt.mpr hpeers), if_neg (not_le.mpr havg)]
  refine ⟨?_, ?_, ?_, ?_, ?_⟩
  · simp only [compare_user_to_cohort_in_region]
    rw [if_neg hloc]
    cases hb : income_bucket_label u.monthly_income with
    | none => exact absurd hb hbucket
    | some b => rcases hperiod with h | h | h <;> subst h <;> rfl
  · rw [hcc]
    split_ifs with h1 h2 <;> simp_all
  · rw [hcc]
    split_ifs with h1 h2 <;> simp_all
    linarith
  · rw [hcc]
    split_ifs with h1 h2
    · constructor
      · intro hEq
        exact hEq.elim
      · rintro ⟨hA, hB⟩
        linarith
    · constructor
      · intro hEq
        exact hEq.elim
      · rintro ⟨hA, hB⟩
        linarith
    · push_neg at h1 h2
      constructor
      · intro hEq
        exact ⟨h2, h1⟩
      · intro hEq
        rfl
  · intro s a ha
    unfold cohort_delta_pct
    rw [if_neg (not_lt.mpr ha)]

/-- Witness for C8 at the spec's boundary example: `user_spent = 115`,
`peer_avg = 100` gives `delta_pct = 15` exactly, which lands on "spent more". -/
theorem compare_user_to_cohort_thresholds_witness :
    compare_user_to_cohort_in_region (some ⟨some "City", some 3000⟩) 115 100 3 "monthly"
        ⟨2026, 2, 7, 16, 46, 0, 0⟩ 1 =
      .ok ⟨"COHORT_REGION_FEEDBACK", CohortMessage.spentMore⟩ ∧
    cohort_delta_pct 115 100 = 15 := by
  have h := compare_user_to_cohort_thresholds ⟨some "City", some 3000⟩ 115 100 3 1 "monthly"
    ⟨2026, 2, 7, 16, 46, 0, 0⟩ (by decide) (by decide) (Or.inr (Or.inl rfl))
    (by norm_num) (by norm_num)
  have hdp : cohort_delta_pct 115 100 = 15 := by
    norm_num [cohort_delta_pct]
  have hclass : cohort_classify 115 100 3 1 = CohortMessage.spentMore :=
    h.2.1.mpr (by rw [hdp])
  refine ⟨?_, hdp⟩
  rw [h.1, hclass]

/-- C9: for every valid period, every business edge case — user not found,
user without a location, user without an income bucket, too few peers, or a
non-positive peer average — makes `compare_user_to_cohort_in_region` return
a well-formed `COHORT_REGION_FEEDBACK` record with a message, never an
error. -/
theorem compare_user_to_cohort_graceful (user : Option User) (user_spent peer_avg : ℚ)
    (peer_users min_peers : ℤ) (period : String) (now : PyDateTime)
    (hperiod : period = "weekly" ∨ period = "monthly" ∨ period = "yearly")
    (_hedge : user = none ∨
      (∃ u, user = some u ∧ (u.location = none ∨ u.location = some "")) ∨
      (∃ u, user = some u ∧ income_bucket_label u.monthly_income = none) ∨
      peer_users < min_peers ∨ peer_avg ≤ 0) :
    ∃ m : CohortMessage,
      compare_user_to_cohort_in_region user user_spent peer_avg peer_users period now
          min_peers = .ok ⟨"COHORT_REGION_FEEDBACK", m⟩ := by
  cases user with
  | none => exact ⟨.userNotFound, rfl⟩
  | some u =>
    simp only [compare_user_to_cohort_in_region]
    by_cases hloc : u.location = none ∨ u.location = some ""
    · rw [if_pos hloc]
      exact ⟨.missingLocation, rfl⟩
    · rw [if_neg hloc]
      cases hb : income_bucket_label u.monthly_income with
      | none => exact ⟨.missingIncome, rfl⟩
      | some b =>
        rcases hperiod with h | h | h <;> subst h <;>
          exact ⟨cohort_classify user_spent peer_avg peer_users min_peers, rfl⟩

/-- Witness for C9: the user-not-found edge case at concrete inputs. -/
theorem compare_user_to_cohort_graceful_witness :
    ∃ m : CohortMessage,
      compare_user_to_cohort_in_region none 0 0 0 "monthly" ⟨2026, 2, 7, 16, 46, 0, 0⟩ 1 =
        .ok ⟨"COHORT_REGION_FEEDBACK", m⟩ :=
  compare_user_to_cohort_graceful none 0 0 0 1 "monthly" ⟨2026, 2, 7, 16, 46, 0, 0⟩
    (Or.inr (Or.inl rfl)) (Or.inl rfl)

/-- C10 counterexample: the buckets do not cover all non-negative incomes —
at `x = 10^18` every bucket test fails and `income_bucket_label` returns
`none`, although the claim asks for a bucket for every `x ≥ 0`. -/
theorem income_bucket_label_cex :
    income_bucket_label (some ((10 : ℚ) ^ 18)) = none := rfl

/-- C10 (amended): for every income `x` with `0 ≤ x < 10^18` (the top
bucket's internal upper bound), `income_bucket_label` yields a label,
`income_bucket_range` parses that label back to a half-open range containing
`x` (with an unbounded top for the `"13000+"` bucket), so the label/range
pair round-trips; incomes of `10^18` and above, and a `None` income, yield
no bucket. -/
theorem income_bucket_round_trip :
    (∀ x : ℚ, 0 ≤ x → x < 10 ^ 18 →
      ∃ lab lo hi, income_bucket_label (some x) = some lab ∧
        income_bucket_range lab = some (lo, hi) ∧
        lo ≤ x ∧ (∀ h : ℚ, hi = some h → x < h)) ∧
    income_bucket_label none = none := by
  constructor
  swap
  · rfl
  intro x hx0 hx18
  by_cases h1 : x < 2500
  · have hfind : INCOME_BUCKETS.find?
        (fun p => decide ((p.1 : ℚ) ≤ x) && decide (x < (p.2 : ℚ))) = some (0, 2500) := by
      rw [show INCOME_BUCKETS = (0, 2500) ::
        [(2500, 4000), (4000, 6000), (6000, 9000), (9000, 13000), (13000, 10 ^ 18)] from rfl]
      rw [List.find?_cons_of_pos]
      simp only [Bool.and_eq_true, decide_eq_true_eq]
      constructor <;> push_cast <;> linarith
    have hlab : income_bucket_label (some x) = some "0-2500" := by
      show (INCOME_BUCKETS.find? fun p =>
          decide ((p.1 : ℚ) ≤ x) && decide (x < (p.2 : ℚ))).map
        (fun p => if (10 : ℤ) ^ 18 ≤ p.2 then toString p.1 ++ "+"
                  else toString p.1 ++ "-" ++ toString p.2) = some "0-2500"
      rw [hfind]
      rfl
    refine ⟨"0-2500", 0, some 2500, hlab, rfl, hx0, ?_⟩
    intro h hh
    have hinj := Option.some.inj hh
    subst hinj
    linarith
  by_cases h2 : x < 4000
  · have hfind : INCOME_BUCKETS.find?
        (fun p => decide ((p.1 : ℚ) ≤ x) && decide (x < (p.2 : ℚ))) = some (2500, 4000) := by
      rw [show INCOME_BUCKETS = (0, 2500) ::
        [(2500, 4000), (4000, 6000), (6000, 9000), (9000, 13000), (13000, 10 ^ 18)] from rfl]
      rw [List.find?_cons_of_neg, List.find?_cons_of_pos] <;>
        simp only [Bool.and_eq_true, decide_eq_true_eq, not_and] <;>
        first
          | (constructor <;> push_cast <;> linarith)
          | (intro hpp; push_cast; linarith)
    have hlab : income_bucket_label (some x) = some "2500-4000" := by
      show (INCOME_BUCKETS.find? fun p =>
          decide ((p.1 : ℚ) ≤ x) && decide (x < (p.2 : ℚ))).map
        (fun p => if (10 : ℤ) ^ 18 ≤ p.2 then toString p.1 ++ "+"
                  else toString p.1 ++ "-" ++ toString p.2) = some "2500-4000"
      rw [hfind]
      rfl
    refine ⟨"2500-4000", 2500, some 4000, hlab, rfl, by linarith, ?_⟩
    intro h hh
    have hinj := Option.some.inj hh
    subst hinj
    linarith
  by_cases h3 : x < 6000
  · have hfind : INCOME_BUCKETS.find?
        (fun p => decide ((p.1 : ℚ) ≤ x) && decide (x < (p.2 : ℚ))) = some (4000, 6000) := by
      rw [show INCOME_BUCKETS = (0, 2500) ::
        [(2500, 4000), (4000, 6000), (6000, 9000), (9000, 13000), (13000, 10 ^ 18)] from rfl]
      rw [List.find?_cons_of_neg, List.find?_cons_of_neg, List.find?_cons_of_pos] <;>
        simp only [Bool.and_eq_true, decide_eq_true_eq, not_and] <;>
        first
          | (constructor <;> push_cast <;> linarith)
          | (intro hpp; push_cast; linarith)
    have hlab : income_bucket_label (some x) = some "4000-6000" := by
      show (INCOME_BUCKETS.find? fun p =>
          decide ((p.1 : ℚ) ≤ x) && decide (x < (p.2 : ℚ))).map
        (fun p => if (10 : ℤ) ^ 18 ≤ p.2 then toString p.1 ++ "+"
                  else toString p.1 ++ "-" ++ toString p.2) = some "4000-6000"
      rw [hfind]
      rfl
    refine ⟨"4000-6000", 4000, some 6000, hlab, rfl, by linarith, ?_⟩
    intro h hh
    have hinj := Option.some.inj hh
    subst hinj
    linarith
  by_cases h4 : x < 9000
  · have hfind : INCOME_BUCKETS.find?
        (fun p => decide ((p.1 : ℚ) ≤ x) && decide (x < (p.2 : ℚ))) = some (6000, 9000) := by
      rw [show INCOME_BUCKETS = (0, 2500) ::
        [(2500, 4000), (4000, 6000), (6000, 9000), (9000, 13000), (13000, 10 ^ 18)] from rfl]
      rw [List.find?_cons_of_neg, List.find?_cons_of_neg, List.find?_cons_of_neg, List.find?_cons_of_pos] <;>
        simp only [Bool.and_eq_true, decide_eq_true_eq, not_and] <;>
        first
          | (constructor <;> push_cast <;> linarith)
          | (intro hpp; push_cast; linarith)
    have hlab : income_bucket_label (some x) = some "6000-9000" := by
      show (INCOME_BUCKETS.find? fun p =>
          decide ((p.1 : ℚ) ≤ x) && decide (x < (p.2 : ℚ))).map
        (fun p => if (10 : ℤ) ^ 18 ≤ p.2 then toString p.1 ++ "+"
                  else toString p.1 ++ "-" ++ toString p.2) = some "6000-9000"
      rw [hfind]
      rfl
    refine ⟨"6000-9000", 6000, some 9000, hlab, rfl, by linarith, ?_⟩
    intro h hh
    have hinj := Option.some.inj hh
    subst hinj
    linarith
  by_cases h5 : x < 13000
  · have hfind : INCOME_BUCKETS.find?
        (fun p => decide ((p.1 : ℚ) ≤ x) && decide (x < (p.2 : ℚ))) = some (9000, 13000) := by
      rw [show INCOME_BUCKETS = (0, 2500) ::
        [(2500, 4000), (4000, 6000), (6000, 9000), (9000, 13000), (13000, 10 ^ 18)] from rfl]
      rw [List.find?_cons_of_neg, List.find?_cons_of_neg, List.find?_cons_of_neg, List.find?_cons_of_neg, List.find?_cons_of_pos] <;>
        simp only [Bool.and_eq_true, decide_eq_true_eq, not_and] <;>
        first
          | (constructor <;> push_cast <;> linarith)
          | (intro hpp; push_cast; linarith)
    have hlab : income_bucket_label (some x) = some "9000-13000" := by
      show (INCOME_BUCKETS.find? fun p =>
          decide ((p.1 : ℚ) ≤ x) && decide (x < (p.2 : ℚ))).map
        (fun p => if (10 : ℤ) ^ 18 ≤ p.2 then toString p.1 ++ "+"
                  else toString p.1 ++ "-" ++ toString p.2) = some "9000-13000"
      rw [hfind]
      rfl
    refine ⟨"9000-13000", 9000, some 13000, hlab, rfl, by linarith, ?_⟩
    intro h hh
    have hinj := Option.some.inj hh
    subst hinj
    linarith
  · have hfind : INCOME_BUCKETS.find?
        (fun p => decide ((p.1 : ℚ) ≤ x) && decide (x < (p.2 : ℚ))) = some (13000, 10 ^ 18) := by
      rw [show INCOME_BUCKETS = (0, 2500) ::
        [(2500, 4000), (4000, 6000), (6000, 9000), (9000, 13000), (13000, 10 ^ 18)] from rfl]
      rw [List.find?_cons_of_neg, List.find?_cons_of_neg, List.find?_cons_of_neg, List.find?_cons_of_neg, List.find?_cons_of_neg, List.find?_cons_of_pos] <;>
        simp only [Bool.and_eq_true, decide_eq_true_eq, not_and] <;>
        first
          | (constructor <;> push_cast <;> linarith)
          | (intro hpp; push_cast; linarith)
    have hlab : income_bucket_label (some x) = some "13000+" := by
      show (INCOME_BUCKETS.find? fun p =>
          decide ((p.1 : ℚ) ≤ x) && decide (x < (p.2 : ℚ))).map
        (fun p => if (10 : ℤ) ^ 18 ≤ p.2 then toString p.1 ++ "+"
                  else toString p.1 ++ "-" ++ toString p.2) = some "13000+"
      rw [hfind]
      rfl
    refine ⟨"13000+", 13000, none, hlab, rfl, by linarith, ?_⟩
    intro h hh
    exact Option.noConfusion hh

/-- Witness for C10 (amended) at the concrete income `3000`. -/
theorem income_bucket_round_trip_witness :
    ∃ lab lo hi, income_bucket_label (some (3000 : ℚ)) = some lab ∧
      income_bucket_range lab = some (lo, hi) ∧ lo ≤ (3000 : ℚ) ∧
      (∀ h : ℚ, hi = some h → (3000 : ℚ) < h) :=
  income_bucket_round_trip.1 3000 (by norm_num) (by norm_num)

end EaseABill
